/-
Verification of the opportunity pipeline of an on-chain arbitrage engine.

The Rust source is shallowly embedded: all `U256` quantities become `Nat`,
and every `U256` arithmetic operation is modelled by a checked operation
returning `Option Nat`, because the `uint`-crate operators used by the
source panic on overflow (and on division by zero) in every build profile.
A `none` result of an embedded function therefore means "the Rust code
panics on this input"; `some` carries the value the Rust code returns.
Addresses are opaque identifiers compared for equality, modelled as `Nat`.
-/
import Mathlib

set_option linter.unusedVariables false
set_option maxRecDepth 8192

namespace MevEngine

/-- Addresses (20-byte identifiers) are abstract: only equality is used. -/
abbrev Addr := Nat

/-- The zero address, `Address::zero()`. -/
def addrZero : Addr := 0

/-- Largest value representable by a 256-bit unsigned integer. -/
def U256MAX : Nat := 2 ^ 256 - 1

/-- Checked `U256` addition: the `uint` crate panics on overflow. -/
def cadd (a b : Nat) : Option Nat :=
  if a + b ≤ U256MAX then some (a + b) else none

/-- Checked `U256` multiplication: the `uint` crate panics on overflow. -/
def cmul (a b : Nat) : Option Nat :=
  if a * b ≤ U256MAX then some (a * b) else none

/-- Checked `U256` subtraction: the `uint` crate panics on underflow. -/
def csub (a b : Nat) : Option Nat :=
  if b ≤ a then some (a - b) else none

/-- Checked `U256` division: the `uint` crate panics on division by zero.
Truncates toward zero, as `Nat` division does. -/
def cdiv (a b : Nat) : Option Nat :=
  if b = 0 then none else some (a / b)

/-- Pool variants, from `arbitrum/pools.rs` (`enum PoolType`). -/
inductive PoolType where
  | uniswapV3 (fee : Nat)
  | sushiSwap
  | camelot
  deriving DecidableEq, Repr

/-- Unified pool representation, from `arbitrum/pools.rs` (`struct Pool`). -/
structure Pool where
  address : Addr
  token0 : Addr
  token1 : Addr
  pool_type : PoolType
  reserve0 : Nat
  reserve1 : Nat
  liquidity : Nat
  fee_bps : Nat
  deriving DecidableEq, Repr

/-- Embedding of `Pool::get_amount_out` (`arbitrum/pools.rs`, lines 75-93).
The result is `none` exactly when the Rust code would panic from a `U256`
overflow; the zero-reserve guard returns `some 0` before any arithmetic. -/
def get_amount_out (p : Pool) (amount_in : Nat) (token_in : Addr) : Option Nat :=
  let rp := if token_in = p.token0 then (p.reserve0, p.reserve1) else (p.reserve1, p.reserve0)
  let reserve_in := rp.1
  let reserve_out := rp.2
  if reserve_in = 0 ∨ reserve_out = 0 then
    some 0
  else do
    let fee_factor := 10000 - p.fee_bps
    let amount_in_with_fee ← cmul amount_in fee_factor
    let numerator ← cmul amount_in_with_fee reserve_out
    let scaled ← cmul reserve_in 10000
    let denominator ← cadd scaled amount_in_with_fee
    cdiv numerator denominator

/-- Mathematical value of the swap formula, valid wherever `get_amount_out`
does not overflow (see `get_amount_out_eq_pure`). -/
def amountOutP (p : Pool) (amount_in : Nat) (token_in : Addr) : Nat :=
  let rp := if token_in = p.token0 then (p.reserve0, p.reserve1) else (p.reserve1, p.reserve0)
  let reserve_in := rp.1
  let reserve_out := rp.2
  if reserve_in = 0 ∨ reserve_out = 0 then 0
  else
    amount_in * (10000 - p.fee_bps) * reserve_out /
      (reserve_in * 10000 + amount_in * (10000 - p.fee_bps))

/-- Reserve bound: V2 reserves are `uint112`, and V3 virtual reserves of
interest are far below this; theorems quantify over this regime. -/
def RESBOUND : Nat := 2 ^ 112

/-- One step of an arbitrage path, from `arbitrum/detector.rs`
(`struct ArbitrageStep`). -/
structure ArbitrageStep where
  pool : Addr
  pool_type : PoolType
  token_in : Addr
  token_out : Addr
  amount_in : Nat
  amount_out : Nat
  deriving DecidableEq, Repr

/-- Arbitrage opportunity, from `arbitrum/detector.rs`
(`struct ArbitrageOpportunity`). -/
structure ArbitrageOpportunity where
  path : List ArbitrageStep
  input_token : Addr
  input_amount : Nat
  output_amount : Nat
  profit : Nat
  profit_bps : Nat
  gas_estimate : Nat
  net_profit : Nat
  deriving DecidableEq, Repr

/-- Embedding of `ArbitrageDetector::estimate_gas` (`arbitrum/detector.rs`,
lines 346-359): variant-dependent per-leg gas plus a fixed 50k overhead. -/
def estimate_gas (pool_a pool_b : PoolType) : Nat :=
  let gas_a := match pool_a with
    | PoolType.uniswapV3 _ => 150000
    | PoolType.sushiSwap => 100000
    | PoolType.camelot => 100000
  let gas_b := match pool_b with
    | PoolType.uniswapV3 _ => 150000
    | PoolType.sushiSwap => 100000
    | PoolType.camelot => 100000
  50000 + gas_a + gas_b

/-- Body of the pair loop of `ArbitrageDetector::find_two_hop_arb`
(`arbitrum/detector.rs`, lines 72-151) for one `(pool_a, pool_b)`
combination. The outer `none` models a panic (a `U256` overflow, or the
division by zero that `profit * 10000 / amount` hits when `amount = 0` and
both swap outputs are nonzero); the inner `none` models `continue` (the
pair is skipped). `profit_bps` keeps only the low 32 bits of the ratio,
mirroring `.low_u32()` in the source. -/
def eval_pair (min_profit_bps gas_price_wei : Nat) (token intermediate : Addr)
    (amount : Nat) (pool_a pool_b : Pool) : Option (Option ArbitrageOpportunity) :=
  if pool_a.address = pool_b.address then some none
  else match get_amount_out pool_a amount token with
  | none => none
  | some amount_mid =>
    if amount_mid = 0 then some none
    else match get_amount_out pool_b amount_mid intermediate with
    | none => none
    | some amount_out =>
      if amount_out = 0 then some none
      else if amount_out ≤ amount then some none
      else
        let profit := amount_out - amount
        match cmul profit 10000 with
        | none => none
        | some scaled =>
          match cdiv scaled amount with
          | none => none
          | some ratio =>
            let profit_bps := ratio % 2 ^ 32
            if profit_bps < min_profit_bps then some none
            else
              let gas_estimate := estimate_gas pool_a.pool_type pool_b.pool_type
              match cmul gas_estimate gas_price_wei with
              | none => none
              | some gas_cost =>
                if gas_cost < profit then
                  some (some ⟨[⟨pool_a.address, pool_a.pool_type, token,
                      intermediate, amount, amount_mid⟩,
                    ⟨pool_b.address, pool_b.pool_type, intermediate, token,
                      amount_mid, amount_out⟩],
                    token, amount, amount_out, profit, profit_bps, gas_estimate,
                    profit - gas_cost⟩)
                else some none

/-- The running-best update of `find_two_hop_arb`: the candidate replaces
the best only on a strict net-profit improvement, as in the source. -/
def better (r best : Option ArbitrageOpportunity) : Option ArbitrageOpportunity :=
  match r, best with
  | some opp, some bst =>
      if bst.net_profit < opp.net_profit then some opp else some bst
  | some opp, none => some opp
  | none, bst => bst

/-- The fold of `find_two_hop_arb` over the pool pairs in iteration order;
`best` starts as `none`. A panicking pair evaluation aborts the whole
search, as a Rust panic would. -/
def two_hop_go (min_profit_bps gas_price_wei : Nat) (token intermediate : Addr)
    (amount : Nat) : List (Pool × Pool) → Option ArbitrageOpportunity →
    Option (Option ArbitrageOpportunity)
  | [], best => some best
  | (a, b) :: rest, best =>
      match eval_pair min_profit_bps gas_price_wei token intermediate amount a b with
      | none => none
      | some r =>
          two_hop_go min_profit_bps gas_price_wei token intermediate amount rest
            (better r best)

/-- Embedding of `ArbitrageDetector::find_two_hop_arb`
(`arbitrum/detector.rs`, lines 53-155). The two pool lists that
`get_pools` returns for the legs are parameters; the nested `for` loops
become a fold over the pair list in the same order. -/
def find_two_hop_arb (min_profit_bps gas_price_wei : Nat)
    (pools_first pools_second : List Pool) (token intermediate : Addr)
    (amount : Nat) : Option (Option ArbitrageOpportunity) :=
  if pools_first.isEmpty ∨ pools_second.isEmpty then some none
  else
    two_hop_go min_profit_bps gas_price_wei token intermediate amount
      (pools_first.flatMap fun a => pools_second.map fun b => (a, b)) none

/-- Dex families, from `detector/multi_threaded.rs` (`enum DexType`). -/
inductive MtDexType where
  | uniswapV2
  | uniswapV3
  | sushiSwap
  | camelot
  | curve
  | balancer
  deriving DecidableEq, Repr

/-- Pool state used by the multi-threaded detector, from
`detector/multi_threaded.rs` (`struct PoolState`). -/
structure PoolState where
  address : Addr
  token0 : Addr
  token1 : Addr
  reserve0 : Nat
  reserve1 : Nat
  fee : Nat
  dex_type : MtDexType
  last_update : Nat
  deriving DecidableEq, Repr

/-- Parsed swap fields of `SwapInfo` (`mempool/ultra_ws.rs`) consumed by
`calculate_2hop_profit`; the dex-type and pool-address fields are unused
there and omitted. -/
structure SwapInfo where
  token_in : Addr
  token_out : Addr
  amount_in : Nat
  min_amount_out : Nat
  deriving DecidableEq, Repr

/-- Path step of the multi-threaded detector, from
`detector/multi_threaded.rs` (`struct PathStep`). -/
structure PathStep where
  pool : Addr
  token_in : Addr
  token_out : Addr
  amount_in : Nat
  expected_out : Nat
  dex_type : MtDexType
  deriving DecidableEq, Repr

/-- Detected opportunity of the multi-threaded detector, from
`detector/multi_threaded.rs` (`struct Opportunity`). The float field
`confidence` (a constant 0.8) is omitted; the wall-clock `detected_ns`
and the caller-filled `id`, `detected_tsc`, `trigger_tx` are modelled
as 0, as `calculate_2hop_profit` itself sets them. -/
structure Opportunity where
  id : Nat
  detected_tsc : Nat
  detected_ns : Nat
  trigger_tx : Nat
  path : List PathStep
  profit_wei : Nat
  gas_estimate : Nat
  net_profit_wei : Nat
  expires_block : Nat
  deriving DecidableEq, Repr

/-- Embedding of `simulate_swap_out` (`detector/multi_threaded.rs`, lines
424-448). The outer `none` models a `U256` overflow panic; the inner
`none` is the function's own `None` on a zero reserve. The `token_out`
parameter is unused, as in the source. -/
def simulate_swap_out (amount_in : Nat) (token_in token_out : Addr)
    (pool : PoolState) : Option (Option Nat) :=
  let rp := if pool.token0 = token_in then (pool.reserve0, pool.reserve1)
            else (pool.reserve1, pool.reserve0)
  let reserve_in := rp.1
  let reserve_out := rp.2
  if reserve_in = 0 ∨ reserve_out = 0 then some none
  else
    let fee_factor := 10000 - pool.fee
    match cmul amount_in fee_factor with
    | none => none
    | some amount_in_with_fee =>
      match cmul amount_in_with_fee reserve_out with
      | none => none
      | some numerator =>
        match cmul reserve_in 10000 with
        | none => none
        | some scaled =>
          match cadd scaled amount_in_with_fee with
          | none => none
          | some denominator =>
            match cdiv numerator denominator with
            | none => none
            | some q => some (some q)

/-- Embedding of `calculate_2hop_profit` (`detector/multi_threaded.rs`,
lines 337-420); only the `gas_price` field of the detector config is read.
The backrun sizes itself at a tenth of the victim's simulated output and
walks `swap.token_out → intermediate` on `pool1`, then
`intermediate → swap.token_in` on `pool2`. -/
def calculate_2hop_profit (swap : SwapInfo) (pool1 pool2 : PoolState)
    (gas_price : Nat) : Option (Option Opportunity) :=
  match simulate_swap_out swap.amount_in swap.token_in swap.token_out pool1 with
  | none => none
  | some none => some none
  | some (some victim_out) =>
    let intermediate :=
      if pool1.token0 = swap.token_out then pool1.token1 else pool1.token0
    match simulate_swap_out (victim_out / 10) swap.token_out intermediate pool1 with
    | none => none
    | some none => some none
    | some (some step1_out) =>
      match simulate_swap_out step1_out intermediate swap.token_in pool2 with
      | none => none
      | some none => some none
      | some (some step2_out) =>
        let input_amount := victim_out / 10
        if step2_out ≤ input_amount then some none
        else
          let gross_profit := step2_out - input_amount
          match cmul gas_price 200000 with
          | none => none
          | some gas_cost =>
            if gross_profit ≤ gas_cost then some none
            else
              some (some ⟨0, 0, 0, 0,
                [⟨pool1.address, swap.token_out, intermediate, input_amount,
                    step1_out, pool1.dex_type⟩,
                 ⟨pool2.address, intermediate, swap.token_in, step1_out,
                    step2_out, pool2.dex_type⟩],
                gross_profit, 200000, gross_profit - gas_cost, 0⟩)

/-- Decision core of `PoolManager::fetch_v3_pool` (`arbitrum/pools.rs`,
lines 173-222). The RPC-fetched quantities (`token0`, `token1`, `liquidity`,
`slot0.sqrtPriceX96`) are parameters; the outer `Option` is `none` when a
`U256` step panics, the inner `none` models the Rust `None` (pool skipped). -/
def fetch_v3_pool (pool_addr : Addr) (fee : Nat) (token0 token1 : Addr)
    (liquidity sqrt_price_x96 : Nat) : Option (Option Pool) :=
  if liquidity = 0 then some none
  else
    let q96 := 2 ^ 96
    if sqrt_price_x96 = 0 then some none
    else do
      let a ← cmul liquidity q96
      let reserve0 ← cdiv a sqrt_price_x96
      let b ← cmul liquidity sqrt_price_x96
      let reserve1 ← cdiv b q96
      if reserve0 < 1000 ∨ reserve1 < 1000 then pure none
      else
        pure (some ⟨pool_addr, token0, token1, PoolType.uniswapV3 fee,
          reserve0, reserve1, liquidity, fee / 100⟩)

/-- Decision core of `PoolManager::fetch_v2_pool` (`arbitrum/pools.rs`,
lines 224-251). The factory answer `pair_addr` and the fetched reserves are
parameters. Note: no dust-threshold check is performed here. -/
def fetch_v2_pool (pair_addr : Addr) (token0 token1 : Addr)
    (pool_type : PoolType) (r0 r1 : Nat) : Option (Option Pool) :=
  if pair_addr = addrZero then some none
  else do
    let liq ← cadd r0 r1
    pure (some ⟨pair_addr, token0, token1, pool_type, r0, r1, liq, 30⟩)

/-- V3 pool at `sqrtPriceX96 = 2^96` with liquidity `10^6`: both virtual
reserves equal the liquidity. -/
def poolW3 : Pool := ⟨3, 1, 2, PoolType.uniswapV3 3000, 10 ^ 6, 10 ^ 6, 10 ^ 6, 30⟩

/-- The eight configured swap selectors of
`EnhancedMempoolMonitor::is_likely_swap` (`mempool/ultra_ws.rs`): V2
swapExactTokensForTokens, swapExactETHForTokens, swapExactTokensForETH;
V3 exactInputSingle, exactInput, exactOutputSingle; universal-router
execute and execute-with-deadline. -/
def swap_selectors : List (Nat × Nat × Nat × Nat) :=
  [(0x38, 0xed, 0x17, 0x39), (0x7f, 0xf3, 0x6a, 0xb5), (0x18, 0xcb, 0xaf, 0xe5),
   (0xc0, 0x4b, 0x8d, 0x59), (0xb8, 0x58, 0x18, 0x3f), (0x41, 0x4b, 0xf3, 0x89),
   (0x36, 0x93, 0xd8, 0xa4), (0x24, 0x85, 0x6b, 0xc3)]

/-- Embedding of `EnhancedMempoolMonitor::is_likely_swap`
(`mempool/ultra_ws.rs`, lines 329-351) on the transaction's input bytes:
fewer than 4 bytes is never a swap; otherwise the first four bytes must
match a known selector, or — the extra clause the code adds — the first
byte must simply be nonzero. -/
def is_likely_swap (input : List Nat) : Bool :=
  match input with
  | b0 :: b1 :: b2 :: b3 :: _ =>
      decide ((b0, b1, b2, b3) ∈ swap_selectors) || decide (b0 ≠ 0)
  | _ => false

/-- Probe loop of `find_optimal_amount` (`arbitrum/detector.rs`, lines
376-400), with the remaining iterations of the `for _ in 0..64` loop as
explicit fuel. State is `(low, high, best_amount, best_profit)`; `none`
models a panicking `U256` step (`low + high`, or `mid - 1` at `mid = 0`). -/
def optimal_go (pool_a pool_b : Pool) (token intermediate : Addr) :
    Nat → Nat → Nat → Nat → Nat → Option Nat
  | 0, _, _, best_amount, _ => some best_amount
  | fuel + 1, low, high, best_amount, best_profit =>
      if low ≥ high then some best_amount
      else match cadd low high with
      | none => none
      | some s =>
        let mid := s / 2
        match get_amount_out pool_a mid token with
        | none => none
        | some amount_mid =>
          match get_amount_out pool_b amount_mid intermediate with
          | none => none
          | some amount_out =>
            let profit := if amount_out > mid then amount_out - mid else 0
            if profit > best_profit then
              match cadd mid 1 with
              | none => none
              | some low2 =>
                  optimal_go pool_a pool_b token intermediate fuel
                    low2 high mid profit
            else
              match csub mid 1 with
              | none => none
              | some high2 =>
                  optimal_go pool_a pool_b token intermediate fuel
                    low high2 best_amount best_profit

/-- Embedding of `find_optimal_amount` (`arbitrum/detector.rs`, lines
363-403): lower bound `10^15`, upper bound a tenth of pool A's smaller
reserve, best amount seeded with the lower bound at zero profit. -/
def find_optimal_amount (pool_a pool_b : Pool) (token intermediate : Addr) :
    Option Nat :=
  let low := 10 ^ 15
  let high := min pool_a.reserve0 pool_a.reserve1 / 10
  optimal_go pool_a pool_b token intermediate 64 low high low 0

/-- Instrumented copy of `optimal_go` that also records every probed
`mid`, for stating which amounts the walk actually evaluated. -/
def optimal_probes (pool_a pool_b : Pool) (token intermediate : Addr) :
    Nat → Nat → Nat → Nat → Nat → Option (Nat × List Nat)
  | 0, _, _, best_amount, _ => some (best_amount, [])
  | fuel + 1, low, high, best_amount, best_profit =>
      if low ≥ high then some (best_amount, [])
      else match cadd low high with
      | none => none
      | some s =>
        let mid := s / 2
        match get_amount_out pool_a mid token with
        | none => none
        | some amount_mid =>
          match get_amount_out pool_b amount_mid intermediate with
          | none => none
          | some amount_out =>
            let profit := if amount_out > mid then amount_out - mid else 0
            if profit > best_profit then
              match cadd mid 1 with
              | none => none
              | some low2 =>
                  match optimal_probes pool_a pool_b token intermediate fuel
                    low2 high mid profit with
                  | none => none
                  | some (r, ps) => some (r, mid :: ps)
            else
              match csub mid 1 with
              | none => none
              | some high2 =>
                  match optimal_probes pool_a pool_b token intermediate fuel
                    low high2 best_amount best_profit with
                  | none => none
                  | some (r, ps) => some (r, mid :: ps)

/-- Pure two-hop profit of probing input `x` through pool A then pool B,
as `find_optimal_amount` measures it, in the no-overflow regime. -/
def profit_at (pool_a pool_b : Pool) (token intermediate : Addr) (x : Nat) : Nat :=
  let amount_out := amountOutP pool_b (amountOutP pool_a x token) intermediate
  if amount_out > x then amount_out - x else 0

/-- Zero-fee pool A for the optimal-sizing counterexample: deep reserves,
so the walk's upper bound is `10^16`. -/
def pa5 : Pool := ⟨301, 1, 2, PoolType.sushiSwap, 10 ^ 17, 10 ^ 17, 0, 0⟩

/-- Zero-fee pool B for the optimal-sizing counterexample: sized so the
two-hop profit is maximal below the walk's lower bound `10^15` and decays
above it, making every probed amount worse than the lower bound. -/
def pb5 : Pool := ⟨302, 2, 1, PoolType.sushiSwap, 10 ^ 15, 22 * 10 ^ 14, 0, 0⟩

/-- Pool A with dust reserves: the walk's upper bound (10) is below the
lower bound, so the probe loop breaks before any evaluation. -/
def paZ : Pool := ⟨303, 1, 2, PoolType.sushiSwap, 100, 100, 0, 0⟩

/-- Pool A for the optimal-sizing witness: upper bound `10^15 + 4`, so the
walk probes only twice. -/
def paW5 : Pool := ⟨304, 1, 2, PoolType.sushiSwap, 10 ^ 16 + 40, 10 ^ 16 + 40, 0, 0⟩

/-- Pool B for the optimal-sizing witness: dust reserves make every probe
unprofitable, so the lower bound is returned. -/
def pbW5 : Pool := ⟨305, 2, 1, PoolType.sushiSwap, 10, 10, 0, 0⟩

/-- First pool of the spec's end-to-end scenario 3 (same shape as
scenario 1): a 30-bps V2-style pool priced near 2000 token1 per token0. -/
def poolA3 : Pool :=
  ⟨100, 1, 2, PoolType.sushiSwap, 1000 * 10 ^ 18, 2000000 * 10 ^ 18, 0, 30⟩

/-- Second pool of the spec's end-to-end scenario 3: slightly cheaper
token0, creating a two-hop arbitrage against `poolA3`. -/
def poolB3 : Pool :=
  ⟨200, 1, 2, PoolType.sushiSwap, 1001 * 10 ^ 18, 1900000 * 10 ^ 18, 0, 30⟩

/-- The opportunity `find_two_hop_arb` emits on `(poolA3, poolB3)` with
input `10^18`, min-profit 10 bps and gas price `10^8`. -/
def oppW2 : ArbitrageOpportunity :=
  ⟨[⟨100, PoolType.sushiSwap, 1, 2, 10 ^ 18, 1992013962079806432986⟩,
    ⟨200, PoolType.sushiSwap, 2, 1, 1992013962079806432986, 1045235831640304146⟩],
   1, 10 ^ 18, 1045235831640304146, 45235831640304146, 452, 250000,
   45210831640304146⟩

/-- Victim swap used to exercise `calculate_2hop_profit`: sells token 10
for token 11. -/
def swapC2 : SwapInfo := ⟨10, 11, 10 ^ 18, 0⟩

/-- Backrun pool over `(11, 12)` for the first leg. -/
def pool1C2 : PoolState := ⟨201, 11, 12, 10 ^ 24, 10 ^ 24, 30, MtDexType.uniswapV2, 0⟩

/-- Return pool over `(10, 12)` for the second leg, priced to make the
backrun profitable. -/
def pool2C2 : PoolState := ⟨202, 10, 12, 2 * 10 ^ 24, 10 ^ 24, 30, MtDexType.uniswapV2, 0⟩

/-- The opportunity `calculate_2hop_profit` emits on the fixture above at
gas price `10^8`: its path runs token 11 → 12 → 10 and is not a cycle. -/
def oppC2 : Opportunity :=
  ⟨0, 0, 0, 0,
   [⟨201, 11, 12, 99699900599199102, 99400791016883267, MtDexType.uniswapV2⟩,
    ⟨202, 12, 10, 99400791016883267, 198205157645021029, MtDexType.uniswapV2⟩],
   98505257045821927, 200000, 98485257045821927, 0⟩

/-- Test pool for the spec's end-to-end scenario 1 (V2 swap at 30 bps). -/
def poolC1 : Pool :=
  ⟨100, 1, 2, PoolType.sushiSwap, 1000 * 10 ^ 18, 2000000 * 10 ^ 18, 0, 30⟩

/-- Pool with unit reserves used to exhibit overflow of the `U256` product. -/
def poolC7 : Pool := ⟨7, 1, 2, PoolType.sushiSwap, 1, 1, 2, 30⟩

/-- Pool with tiny reserves on which truncation flattens the output. -/
def poolC8 : Pool := ⟨8, 1, 2, PoolType.sushiSwap, 1, 1, 2, 30⟩

/-- Pool with small nonzero reserves for the zero-output counterexample. -/
def poolC9 : Pool := ⟨9, 1, 2, PoolType.sushiSwap, 5, 7, 12, 30⟩

theorem get_amount_out_eq_pure (p : Pool) (x : Nat) (t : Addr)
    (h0 : p.reserve0 < RESBOUND) (h1 : p.reserve1 < RESBOUND)
    (hx : x < RESBOUND) (hf : p.fee_bps ≤ 10000) :
    get_amount_out p x t = some (amountOutP p x t) := by
  have hmax : RESBOUND * 10000 * RESBOUND + RESBOUND * 10000 ≤ U256MAX := by
    norm_num [RESBOUND, U256MAX]
  unfold get_amount_out amountOutP
  set rin := (if t = p.token0 then (p.reserve0, p.reserve1) else (p.reserve1, p.reserve0)).1 with hrin
  set rout := (if t = p.token0 then (p.reserve0, p.reserve1) else (p.reserve1, p.reserve0)).2 with hrout
  have hrinlt : rin < RESBOUND := by
    rw [hrin]; split <;> simpa
  have hroutlt : rout < RESBOUND := by
    rw [hrout]; split <;> simpa
  by_cases hz : rin = 0 ∨ rout = 0
  · simp [hz]
  · simp only [hz, if_false]
    have hff : 10000 - p.fee_bps ≤ 10000 := Nat.sub_le _ _
    have hafee : x * (10000 - p.fee_bps) ≤ RESBOUND * 10000 :=
      Nat.mul_le_mul hx.le hff
    have h1' : x * (10000 - p.fee_bps) ≤ U256MAX :=
      le_trans hafee (by norm_num [RESBOUND, U256MAX])
    have h2' : x * (10000 - p.fee_bps) * rout ≤ U256MAX :=
      le_trans (Nat.mul_le_mul hafee hroutlt.le)
        (le_trans (Nat.le_add_right _ _) hmax)
    have h3' : rin * 10000 ≤ U256MAX :=
      le_trans (Nat.mul_le_mul hrinlt.le (le_refl 10000))
        (le_trans (by nlinarith [hafee]) hmax)
    have h4' : rin * 10000 + x * (10000 - p.fee_bps) ≤ U256MAX := by
      have : rin * 10000 + x * (10000 - p.fee_bps) ≤
          RESBOUND * 10000 * RESBOUND + RESBOUND * 10000 := by
        have hr : rin * 10000 ≤ RESBOUND * 10000 * RESBOUND := by nlinarith
        exact Nat.add_le_add hr hafee
      exact le_trans this hmax
    have hden : rin * 10000 + x * (10000 - p.fee_bps) ≠ 0 := by
      have : rin ≠ 0 := fun h => hz (Or.inl h)
      positivity
    simp only [cmul, cadd, cdiv, h1', h2', h3', h4', if_true, hden, if_false,
      Option.bind_eq_bind, Option.some_bind]

/-- Comparing two truncating divisions by cross-multiplication. -/
theorem div_le_div_cross {a b c d : Nat} (h : a * d ≤ c * b) (hb : 0 < b) (hd : 0 < d) :
    a / b ≤ c / d := by
  rw [Nat.le_div_iff_mul_le hd]
  calc a / b * d ≤ a * d / b := by
        rw [Nat.le_div_iff_mul_le hb]
        calc a / b * d * b = a / b * b * d := by ring
          _ ≤ a * d := Nat.mul_le_mul_right d (Nat.div_mul_le_self a b)
    _ ≤ c * b / b := Nat.div_le_div_right h
    _ = c := by rw [Nat.mul_div_assoc c (dvd_refl b), Nat.div_self hb, Nat.mul_one]

/-- The pure swap output is monotone (non-strictly) in the input amount. -/
theorem amountOutP_mono (p : Pool) (t : Addr) {x1 x2 : Nat} (h : x1 ≤ x2) :
    amountOutP p x1 t ≤ amountOutP p x2 t := by
  unfold amountOutP
  set rin := (if t = p.token0 then (p.reserve0, p.reserve1) else (p.reserve1, p.reserve0)).1
  set rout := (if t = p.token0 then (p.reserve0, p.reserve1) else (p.reserve1, p.reserve0)).2
  by_cases hz : rin = 0 ∨ rout = 0
  · simp [hz]
  · simp only [hz, if_false]
    push_neg at hz
    have hrin : 0 < rin := Nat.pos_of_ne_zero hz.1
    set c := 10000 - p.fee_bps with hc
    apply div_le_div_cross
    · have key : x1 * (c * rout * (rin * 10000)) ≤ x2 * (c * rout * (rin * 10000)) :=
        Nat.mul_le_mul_right _ h
      calc x1 * c * rout * (rin * 10000 + x2 * c)
          = x1 * (c * rout * (rin * 10000)) + x1 * x2 * (c * c * rout) := by ring
        _ ≤ x2 * (c * rout * (rin * 10000)) + x1 * x2 * (c * c * rout) :=
            Nat.add_le_add_right key _
        _ = x2 * c * rout * (rin * 10000 + x1 * c) := by ring
    · positivity
    · positivity

/-- Binding an `if`-guarded some succeeds exactly when the guard holds. -/
theorem bind_if_some {α β : Type} {c : Prop} [Decidable c] {a : α}
    {f : α → Option β} {o : β} :
    ((if c then some a else none) >>= f) = some o ↔ c ∧ f a = some o := by
  split <;> simp_all

/-- A successful checked computation returns exactly the pure formula value. -/
theorem get_amount_out_some_eq (p : Pool) (x : Nat) (t : Addr) {o : Nat}
    (h : get_amount_out p x t = some o) : o = amountOutP p x t := by
  unfold get_amount_out at h
  unfold amountOutP
  set rin := (if t = p.token0 then (p.reserve0, p.reserve1) else (p.reserve1, p.reserve0)).1
  set rout := (if t = p.token0 then (p.reserve0, p.reserve1) else (p.reserve1, p.reserve0)).2
  by_cases hz : rin = 0 ∨ rout = 0
  · simp only [hz, if_true, Option.some.injEq] at h ⊢
    omega
  · simp only [hz, if_false, cmul, cadd, cdiv, bind_if_some] at h ⊢
    obtain ⟨-, -, -, -, h⟩ := h
    split_ifs at h <;> simp_all

/-- A zero reserve short-circuits to a zero output before any arithmetic. -/
theorem get_amount_out_zero_reserve (p : Pool) (x : Nat) (t : Addr)
    (h : p.reserve0 = 0 ∨ p.reserve1 = 0) : get_amount_out p x t = some 0 := by
  unfold get_amount_out
  rcases h with h | h <;> split <;> simp [h]

/-- Within the reserve regime, the swap output is below the output reserve
bound, so chained swaps stay in the regime. -/
theorem amountOutP_lt_resbound (p : Pool) (x : Nat) (t : Addr)
    (h0 : p.reserve0 < RESBOUND) (h1 : p.reserve1 < RESBOUND) :
    amountOutP p x t < RESBOUND := by
  unfold amountOutP
  set rin := (if t = p.token0 then (p.reserve0, p.reserve1) else (p.reserve1, p.reserve0)).1 with hrin
  set rout := (if t = p.token0 then (p.reserve0, p.reserve1) else (p.reserve1, p.reserve0)).2 with hrout
  have hroutlt : rout < RESBOUND := by
    rw [hrout]; split <;> simpa
  by_cases hz : rin = 0 ∨ rout = 0
  · simp only [hz, if_true]
    norm_num [RESBOUND]
  · simp only [hz, if_false]
    push_neg at hz
    have hrin1 : 0 < rin := Nat.pos_of_ne_zero hz.1
    set c := 10000 - p.fee_bps with hc
    have hden : 0 < rin * 10000 + x * c := by positivity
    have hnum : x * c * rout ≤ (rin * 10000 + x * c) * rout :=
      Nat.mul_le_mul_right rout (Nat.le_add_left _ _)
    calc x * c * rout / (rin * 10000 + x * c)
        ≤ (rin * 10000 + x * c) * rout / (rin * 10000 + x * c) :=
          Nat.div_le_div_right hnum
      _ = rout := Nat.mul_div_cancel_left _ hden
      _ < RESBOUND := hroutlt

/-- C1, counterexample. The spec's own formula at `R0 = 1000e18`,
`R1 = 2000000e18`, `amount_in = 1e18`, `f = 30` evaluates to
1_992_013_962_079_806_432_986, not the spec's 1_991_027_483_933_061_813_410;
the code agrees with the formula, so the spec's concrete expected output is
wrong. -/
theorem spec2_c1_counterexample :
    get_amount_out poolC1 (10 ^ 18) 1 = some 1992013962079806432986 ∧
    (10 ^ 18 * 9970 * (2000000 * 10 ^ 18)) /
        (1000 * 10 ^ 18 * 10000 + 10 ^ 18 * 9970) = 1992013962079806432986 ∧
    1992013962079806432986 ≠ 1991027483933061813410 := by
  refine ⟨by rfl, by decide, by decide⟩

/-- C1, amended. For a V2-style pool with fee `f` basis points and nonzero
reserves oriented to the input token, `get_amount_out` computes
`amount_in * (10000 - f) * R_out / (R_in * 10000 + amount_in * (10000 - f))`
with truncating division (within the 112-bit regime where no `U256` step
overflows); at the spec's scenario-1 inputs the output is exactly
1_992_013_962_079_806_432_986 (the spec's stated 1_991_027_483_933_061_813_410
is arithmetically wrong for its own formula). -/
theorem spec2_c1 :
    (∀ (p : Pool) (x : Nat) (t : Addr),
      0 < p.reserve0 → 0 < p.reserve1 →
      p.reserve0 < RESBOUND → p.reserve1 < RESBOUND → x < RESBOUND →
      p.fee_bps ≤ 10000 →
      get_amount_out p x t =
        some (x * (10000 - p.fee_bps) *
            (if t = p.token0 then p.reserve1 else p.reserve0) /
          ((if t = p.token0 then p.reserve0 else p.reserve1) * 10000 +
            x * (10000 - p.fee_bps)))) ∧
    get_amount_out poolC1 (10 ^ 18) 1 = some 1992013962079806432986 := by
  constructor
  · intro p x t hp0 hp1 h0 h1 hx hf
    rw [get_amount_out_eq_pure p x t h0 h1 hx hf]
    unfold amountOutP
    by_cases ht : t = p.token0 <;> simp [ht, hp0.ne', hp1.ne']
  · rfl

/-- C1 witness: the general formula instantiated at the scenario-1 inputs. -/
theorem spec2_c1_witness :
    get_amount_out poolC1 (10 ^ 18) 1 =
      some (10 ^ 18 * (10000 - poolC1.fee_bps) *
          (if 1 = poolC1.token0 then poolC1.reserve1 else poolC1.reserve0) /
        ((if 1 = poolC1.token0 then poolC1.reserve0 else poolC1.reserve1) * 10000 +
          10 ^ 18 * (10000 - poolC1.fee_bps))) :=
  spec2_c1.1 poolC1 (10 ^ 18) 1 (by decide) (by decide)
    (by decide) (by decide) (by decide) (by decide)

/-- C7, counterexample. At `amount_in = 2^256 - 1` (a full-range input) with
nonzero reserves, the multiplication `amount_in * fee_factor` overflows
`U256`, which panics in the `uint` crate; `none` models that panic, so
`get_amount_out` is not total over the full 256-bit input range and the
overflow is an abort, not a silent rejection. -/
theorem spec2_c7_counterexample :
    get_amount_out poolC7 (2 ^ 256 - 1) 1 = none := by
  rfl

/-- C7, amended. The swap formula is evaluated without overflow whenever the
input amount and both reserves are below `2^112` (the `uint112` width of V2
reserves) and the fee is a valid basis-point value; in that regime the
computation always returns a value and never panics. Outside it, the `U256`
multiplications can overflow and abort. -/
theorem spec2_c7 (p : Pool) (x : Nat) (t : Addr)
    (h0 : p.reserve0 < RESBOUND) (h1 : p.reserve1 < RESBOUND)
    (hx : x < RESBOUND) (hf : p.fee_bps ≤ 10000) :
    (get_amount_out p x t).isSome = true := by
  rw [get_amount_out_eq_pure p x t h0 h1 hx hf]
  rfl

/-- C7 witness: totality at a concrete in-regime input. -/
theorem spec2_c7_witness : (get_amount_out poolC7 (5 * 10 ^ 17) 2).isSome = true :=
  spec2_c7 poolC7 (5 * 10 ^ 17) 2 (by decide) (by decide) (by decide) (by decide)

/-- C8, counterexample. With fixed nonzero reserves `(1, 1)` and fee 30 bps,
inputs 1 and 2 both produce output 0: truncating division makes the output
non-strictly monotone, refuting strict increase. -/
theorem spec2_c8_counterexample :
    get_amount_out poolC8 1 1 = some 0 ∧
    get_amount_out poolC8 2 1 = some 0 ∧
    poolC8.reserve0 ≠ 0 ∧ poolC8.reserve1 ≠ 0 := by
  exact ⟨by rfl, by rfl, by decide, by decide⟩

/-- C8, amended. For fixed reserves the swap output is monotone
non-decreasing in the input amount (strictness fails because integer
division truncates): whenever both computations succeed, a larger input
never yields a smaller output. -/
theorem spec2_c8 (p : Pool) (t : Addr) (x1 x2 o1 o2 : Nat) (hx : x1 ≤ x2)
    (h1 : get_amount_out p x1 t = some o1)
    (h2 : get_amount_out p x2 t = some o2) : o1 ≤ o2 := by
  rw [get_amount_out_some_eq p x1 t h1, get_amount_out_some_eq p x2 t h2]
  exact amountOutP_mono p t hx

/-- C8 witness: monotonicity at concrete inputs on the scenario-1 pool. -/
theorem spec2_c8_witness :
    (975065524623379583 : Nat) ≤ 1992013962079806432986 :=
  spec2_c8 poolC1 1 (489 * 10 ^ 12) (10 ^ 18) 975065524623379583
    1992013962079806432986 (by norm_num) (by rfl) (by rfl)

/-- C9, counterexample. A zero input amount yields a zero output even though
both reserves are nonzero, refuting the "returns 0 only if a reserve is 0"
direction of the claim. -/
theorem spec2_c9_counterexample :
    get_amount_out poolC9 0 1 = some 0 ∧
    poolC9.reserve0 ≠ 0 ∧ poolC9.reserve1 ≠ 0 := by
  refine ⟨?_, by decide, by decide⟩
  rfl

/-- C9, amended. The swap output is 0 whenever either reserve is 0 (the
guard short-circuits before any arithmetic), and also when the input amount
is 0; with nonzero reserves the converse fails because truncation can
produce 0 for small positive inputs. -/
theorem spec2_c9 :
    (∀ (p : Pool) (x : Nat) (t : Addr), p.reserve0 = 0 ∨ p.reserve1 = 0 →
      get_amount_out p x t = some 0) ∧
    (∀ (p : Pool) (t : Addr), p.reserve0 < RESBOUND → p.reserve1 < RESBOUND →
      p.fee_bps ≤ 10000 → get_amount_out p 0 t = some 0) := by
  constructor
  · exact get_amount_out_zero_reserve
  · intro p t h0 h1 hf
    rw [get_amount_out_eq_pure p 0 t h0 h1 (by norm_num [RESBOUND]) hf]
    unfold amountOutP
    split <;> simp

/-- C9 witness: both zero cases at concrete pools. -/
theorem spec2_c9_witness :
    get_amount_out ⟨9, 1, 2, PoolType.sushiSwap, 0, 7, 7, 30⟩ 3 1 = some 0 ∧
    get_amount_out poolC9 0 1 = some 0 :=
  ⟨spec2_c9.1 _ 3 1 (Or.inl rfl),
   spec2_c9.2 poolC9 1 (by decide) (by decide) (by decide)⟩

/-- Binding an `if`-guarded none (error case first) succeeds exactly when the
guard fails. -/
theorem bind_if_none {α β : Type} {c : Prop} [Decidable c] {a : α}
    {f : α → Option β} {o : β} :
    ((if c then none else some a) >>= f) = some o ↔ ¬c ∧ f a = some o := by
  split <;> simp_all

/-- C3, counterexample. A V2-style pool with reserves (5, 7) — both far
below the 1000-unit dust threshold — is returned by `fetch_v2_pool` and
hence inserted into the pool graph: the dust filter exists only on the
V3 discovery path. -/
theorem spec2_c3_counterexample :
    fetch_v2_pool 5 1 2 PoolType.sushiSwap 5 7 =
      some (some ⟨5, 1, 2, PoolType.sushiSwap, 5, 7, 12, 30⟩) ∧
    (Pool.mk 5 1 2 PoolType.sushiSwap 5 7 12 30).reserve0 < 1000 ∧
    (Pool.mk 5 1 2 PoolType.sushiSwap 5 7 12 30).reserve1 < 1000 := by
  exact ⟨by rfl, by decide, by decide⟩

/-- C3, amended. Only V3-style discovery filters dust: every pool returned
by `fetch_v3_pool` has both virtual reserves at least 1000, while
`fetch_v2_pool` returns whatever reserves the pair reports, with no
minimum-reserve filter (see the counterexample). -/
theorem spec2_c3 (pool_addr : Addr) (fee : Nat) (token0 token1 : Addr)
    (liquidity sqrt_price_x96 : Nat) (p : Pool)
    (h : fetch_v3_pool pool_addr fee token0 token1 liquidity sqrt_price_x96 =
      some (some p)) :
    1000 ≤ p.reserve0 ∧ 1000 ≤ p.reserve1 := by
  unfold fetch_v3_pool at h
  split_ifs at h with h1 h2
  · simp at h
  · simp at h
  · simp only [cmul, cdiv, bind_if_some, bind_if_none] at h
    obtain ⟨-, -, -, -, h⟩ := h
    split_ifs at h with h3
    · simp at h
    · simp only [pure, Option.some.injEq] at h
      push_neg at h3
      rw [← h]
      exact h3

/-- C3 witness: a concrete V3 pool that passes discovery has reserves at
least 1000 on both sides. -/
theorem spec2_c3_witness : 1000 ≤ poolW3.reserve0 ∧ 1000 ≤ poolW3.reserve1 :=
  spec2_c3 3 3000 1 2 (10 ^ 6) (2 ^ 96) poolW3 (by rfl)

/-- C4, counterexample. Selector `0x01000000` is not in the configured swap
selector set, yet the transaction is classified as a swap, because the code
additionally accepts any call data whose first byte is nonzero. -/
theorem spec2_c4_counterexample :
    is_likely_swap [0x01, 0x00, 0x00, 0x00] = true ∧
    (0x01, 0x00, 0x00, 0x00) ∉ swap_selectors := by
  exact ⟨by rfl, by decide⟩

/-- C4, amended. The enhanced-mode ingestor classifies a transaction as a
swap iff its call data has at least 4 bytes and either the 4-byte selector
is one of the eight configured swap selectors or the first byte of the
selector is nonzero; the claimed pure selector-set test holds only for
selectors starting with a zero byte. -/
theorem spec2_c4 (input : List Nat) :
    is_likely_swap input = true ↔
      ∃ b0 b1 b2 b3 rest, input = b0 :: b1 :: b2 :: b3 :: rest ∧
        ((b0, b1, b2, b3) ∈ swap_selectors ∨ b0 ≠ 0) := by
  match input with
  | [] => simp [is_likely_swap]
  | [a] => simp [is_likely_swap]
  | [a, b] => simp [is_likely_swap]
  | [a, b, c] => simp [is_likely_swap]
  | b0 :: b1 :: b2 :: b3 :: rest =>
    simp only [is_likely_swap, Bool.or_eq_true, decide_eq_true_eq]
    constructor
    · intro h
      exact ⟨b0, b1, b2, b3, rest, rfl, h⟩
    · rintro ⟨c0, c1, c2, c3, r, heq, h⟩
      injection heq with h0 heq; injection heq with h1 heq
      injection heq with h2 heq; injection heq with h3 heq
      subst h0; subst h1; subst h2; subst h3
      exact h

/-- C4 witness: a genuine V2 swapExactTokensForTokens selector is
classified as a swap. -/
theorem spec2_c4_witness : is_likely_swap [0x38, 0xed, 0x17, 0x39, 5] = true :=
  (spec2_c4 _).mpr ⟨0x38, 0xed, 0x17, 0x39, [5], rfl, Or.inl (by decide)⟩

/-- C10, confirmed. A token that is neither of the pool's tokens falls into
the `else` orientation branch, exactly as `token1` does (pools have distinct
tokens per the data model), so the unknown token is silently treated as
`token1` with reserves oriented `(reserve1, reserve0)` and no error is
signalled. -/
theorem spec2_c10 (p : Pool) (x : Nat) (t : Addr) (hne : p.token0 ≠ p.token1)
    (ht0 : t ≠ p.token0) (ht1 : t ≠ p.token1) :
    get_amount_out p x t = get_amount_out p x p.token1 := by
  unfold get_amount_out
  rw [if_neg ht0, if_neg (Ne.symm hne)]

/-- C10 witness: an unknown token behaves as `token1` on a concrete pool. -/
theorem spec2_c10_witness :
    get_amount_out poolC9 11 77 = get_amount_out poolC9 11 poolC9.token1 :=
  spec2_c10 poolC9 11 77 (by decide) (by decide) (by decide)

/-- Every opportunity emitted by a single pair evaluation of the two-hop
search satisfies the profit inequalities and the cyclic path shape. -/
theorem eval_pair_emits {mb gp : Nat} {token inter : Addr} {amount : Nat}
    {a b : Pool} {opp : ArbitrageOpportunity}
    (h : eval_pair mb gp token inter amount a b = some (some opp)) :
    opp.input_amount < opp.output_amount ∧
    opp.net_profit + opp.gas_estimate * gp = opp.profit ∧
    opp.input_token = token ∧ opp.input_amount = amount ∧
    ∃ s1 s2, opp.path = [s1, s2] ∧ s1.token_out = s2.token_in ∧
      s1.token_in = token ∧ s2.token_out = token := by
  unfold eval_pair at h
  split at h
  · simp at h
  split at h
  · simp at h
  next amount_mid hga =>
  split at h
  · simp at h
  split at h
  · simp at h
  next amount_out hgb =>
  split at h
  · simp at h
  split at h
  · simp at h
  dsimp only at h
  split at h
  · simp at h
  next scaled hsc =>
  split at h
  · simp at h
  next ratio hdiv =>
  split at h
  · simp at h
  split at h
  · simp at h
  next gas_cost hgc =>
  split at h
  case isFalse => simp at h
  case isTrue hprofit =>
  simp only [Option.some.injEq] at h
  subst h
  simp only [cmul, Option.ite_none_right_eq_some, Option.some.injEq] at hgc
  obtain ⟨-, hgc⟩ := hgc
  refine ⟨?_, ?_, rfl, rfl, ⟨_, _, rfl, rfl, rfl, rfl⟩⟩
  · show amount < amount_out
    omega
  · show amount_out - amount - gas_cost +
      estimate_gas a.pool_type b.pool_type * gp = amount_out - amount
    omega

/-- A skipped pair leaves the running best unchanged. -/
theorem better_none (best : Option ArbitrageOpportunity) : better none best = best := by
  cases best <;> rfl

/-- The running best after an update is at least as profitable as both the
candidate and the previous best. -/
theorem better_some {onew : ArbitrageOpportunity} {best : Option ArbitrageOpportunity} :
    ∃ x, better (some onew) best = some x ∧ onew.net_profit ≤ x.net_profit ∧
      (∀ o, best = some o → o.net_profit ≤ x.net_profit) ∧
      (x = onew ∨ best = some x) := by
  cases best with
  | none => exact ⟨onew, rfl, le_refl _, fun o ho => Option.noConfusion ho, Or.inl rfl⟩
  | some bst =>
    by_cases hlt : bst.net_profit < onew.net_profit
    · refine ⟨onew, ?_, le_refl _, ?_, Or.inl rfl⟩
      · simp [better, hlt]
      · intro o ho
        cases ho
        exact le_of_lt hlt
    · refine ⟨bst, ?_, le_of_not_lt hlt, ?_, Or.inr rfl⟩
      · simp [better, hlt]
      · intro o ho
        cases ho
        exact le_refl _

/-- Any property of emitted pairs is carried through the fold to the
returned best opportunity. -/
theorem two_hop_go_pred {mb gp : Nat} {token inter : Addr} {amount : Nat}
    (P : ArbitrageOpportunity → Prop)
    (hP : ∀ a b o, eval_pair mb gp token inter amount a b = some (some o) → P o) :
    ∀ (l : List (Pool × Pool)) (best : Option ArbitrageOpportunity)
      (opp : ArbitrageOpportunity),
      (∀ o, best = some o → P o) →
      two_hop_go mb gp token inter amount l best = some (some opp) → P opp := by
  intro l
  induction l with
  | nil =>
    intro best opp hbest h
    simp only [two_hop_go, Option.some.injEq] at h
    exact hbest opp h
  | cons hd tl ih =>
    rintro best opp hbest h
    obtain ⟨a, b⟩ := hd
    unfold two_hop_go at h
    split at h
    · simp at h
    next r hev =>
    refine ih (better r best) opp ?_ h
    intro o ho
    cases r with
    | none =>
      rw [better_none] at ho
      exact hbest o ho
    | some onew =>
      have hnew : P onew := hP a b onew hev
      obtain ⟨x, hx, -, -, hor⟩ := @better_some onew best
      rw [hx] at ho
      cases ho
      rcases hor with rfl | hbst
      · exact hnew
      · exact hbest o hbst

/-- The fold result is at least as profitable as the incoming best. -/
theorem two_hop_go_mono {mb gp : Nat} {token inter : Addr} {amount : Nat} :
    ∀ (l : List (Pool × Pool)) (best : Option ArbitrageOpportunity)
      (opp : ArbitrageOpportunity),
      two_hop_go mb gp token inter amount l best = some (some opp) →
      ∀ o, best = some o → o.net_profit ≤ opp.net_profit := by
  intro l
  induction l with
  | nil =>
    intro best opp h o ho
    simp only [two_hop_go, Option.some.injEq] at h
    rw [ho] at h
    cases h
    exact le_refl _
  | cons hd tl ih =>
    rintro best opp h o ho
    obtain ⟨a, b⟩ := hd
    unfold two_hop_go at h
    split at h
    · simp at h
    next r hev =>
    subst ho
    cases r with
    | none =>
      rw [better_none] at h
      exact ih _ opp h o rfl
    | some onew =>
      obtain ⟨x, hx, -, hoth, -⟩ := @better_some onew (some o)
      rw [hx] at h
      exact le_trans (hoth o rfl) (ih _ opp h x rfl)

/-- The fold result is at least as profitable as every opportunity emitted
by any pair in the remaining list. -/
theorem two_hop_go_max {mb gp : Nat} {token inter : Addr} {amount : Nat} :
    ∀ (l : List (Pool × Pool)) (best : Option ArbitrageOpportunity)
      (opp : ArbitrageOpportunity),
      two_hop_go mb gp token inter amount l best = some (some opp) →
      ∀ a b o, (a, b) ∈ l →
        eval_pair mb gp token inter amount a b = some (some o) →
        o.net_profit ≤ opp.net_profit := by
  intro l
  induction l with
  | nil =>
    intro best opp h a b o hmem
    simp at hmem
  | cons hd tl ih =>
    rintro best opp h a b o hmem hev
    obtain ⟨a', b'⟩ := hd
    unfold two_hop_go at h
    split at h
    · simp at h
    next r hev' =>
    rcases List.mem_cons.mp hmem with heq | hmem'
    · cases heq
      rw [hev] at hev'
      cases hev'
      obtain ⟨x, hx, hle, -⟩ := @better_some o best
      rw [hx] at h
      exact le_trans hle (two_hop_go_mono tl (some x) opp h x rfl)
    · exact ih _ opp h a b o hmem' hev

/-- Unfolding one step of the pair fold when the evaluation does not
panic. -/
theorem two_hop_go_cons {mb gp : Nat} {token inter : Addr} {amount : Nat}
    {a b : Pool} {rest : List (Pool × Pool)} {best : Option ArbitrageOpportunity}
    {r : Option ArbitrageOpportunity}
    (hev : eval_pair mb gp token inter amount a b = some r) :
    two_hop_go mb gp token inter amount ((a, b) :: rest) best =
      two_hop_go mb gp token inter amount rest (better r best) := by
  have hstep : two_hop_go mb gp token inter amount ((a, b) :: rest) best =
      match eval_pair mb gp token inter amount a b with
      | none => none
      | some r => two_hop_go mb gp token inter amount rest (better r best) := rfl
  rw [hstep, hev]

/-- A fold whose incoming best is present and whose remaining pairs never
panic always returns an opportunity. -/
theorem two_hop_go_keeps_some {mb gp : Nat} {token inter : Addr} {amount : Nat} :
    ∀ (l : List (Pool × Pool)) (bst : ArbitrageOpportunity),
      (∀ p ∈ l, eval_pair mb gp token inter amount p.1 p.2 ≠ none) →
      ∃ opp, two_hop_go mb gp token inter amount l (some bst) = some (some opp) := by
  intro l
  induction l with
  | nil => exact fun bst _ => ⟨bst, rfl⟩
  | cons hd tl ih =>
    intro bst hnp
    obtain ⟨a, b⟩ := hd
    cases hev : eval_pair mb gp token inter amount a b with
    | none => exact absurd hev (hnp (a, b) (List.mem_cons_self _ _))
    | some r =>
      rw [two_hop_go_cons hev]
      cases r with
      | none =>
        rw [better_none]
        exact ih bst fun p hp => hnp p (List.mem_cons_of_mem _ hp)
      | some onew =>
        obtain ⟨x, hx, -, -⟩ := @better_some onew (some bst)
        rw [hx]
        exact ih x fun p hp => hnp p (List.mem_cons_of_mem _ hp)

/-- If some pair of the list emits an opportunity and no pair panics, the
fold returns an opportunity. -/
theorem two_hop_go_reaches {mb gp : Nat} {token inter : Addr} {amount : Nat} :
    ∀ (l : List (Pool × Pool)) (best : Option ArbitrageOpportunity)
      (a b : Pool) (o : ArbitrageOpportunity),
      (∀ p ∈ l, eval_pair mb gp token inter amount p.1 p.2 ≠ none) →
      (a, b) ∈ l → eval_pair mb gp token inter amount a b = some (some o) →
      ∃ opp, two_hop_go mb gp token inter amount l best = some (some opp) := by
  intro l
  induction l with
  | nil =>
    intro best a b o _ hmem
    simp at hmem
  | cons hd tl ih =>
    intro best a b o hnp hmem hev
    obtain ⟨a', b'⟩ := hd
    cases hev' : eval_pair mb gp token inter amount a' b' with
    | none => exact absurd hev' (hnp (a', b') (List.mem_cons_self _ _))
    | some r =>
      rw [two_hop_go_cons hev']
      rcases List.mem_cons.mp hmem with heq | hmem'
      · cases heq
        rw [hev] at hev'
        cases hev'
        obtain ⟨x, hx, -, -⟩ := @better_some o best
        rw [hx]
        exact two_hop_go_keeps_some tl x fun p hp => hnp p (List.mem_cons_of_mem _ hp)
      · exact ih (better r best) a b o
          (fun p hp => hnp p (List.mem_cons_of_mem _ hp)) hmem' hev

/-- C2, counterexample. `calculate_2hop_profit` emits an opportunity whose
path starts at the victim's output token (11) and ends at the victim's
input token (10): `step[0].token_in ≠ step[last].token_out`, so emitted
opportunities are not all cycles. -/
theorem spec2_c2_counterexample :
    calculate_2hop_profit swapC2 pool1C2 pool2C2 (10 ^ 8) = some (some oppC2) ∧
    oppC2.path.map PathStep.token_in = [11, 12] ∧
    oppC2.path.map PathStep.token_out = [12, 10] ∧
    (11 : Nat) ≠ 10 :=
  ⟨by rfl, by rfl, by rfl, by decide⟩

/-- C2, amended. Opportunities emitted by `find_two_hop_arb` satisfy all
four claimed invariants (output above input, the net-profit accounting
identity, token agreement between consecutive steps, and a cyclic path).
Opportunities emitted by `calculate_2hop_profit` satisfy the first three,
but their two-step path runs from the observed swap's `token_out` to its
`token_in`, so it is a cycle only when those coincide. -/
theorem spec2_c2 :
    (∀ (mb gp : Nat) (l1 l2 : List Pool) (token inter : Addr) (amount : Nat)
      (opp : ArbitrageOpportunity),
      find_two_hop_arb mb gp l1 l2 token inter amount = some (some opp) →
      opp.input_amount < opp.output_amount ∧
      opp.net_profit + opp.gas_estimate * gp = opp.profit ∧
      ∃ s1 s2, opp.path = [s1, s2] ∧ s1.token_out = s2.token_in ∧
        s1.token_in = token ∧ s2.token_out = token) ∧
    (∀ (swap : SwapInfo) (p1 p2 : PoolState) (gp : Nat) (opp : Opportunity),
      calculate_2hop_profit swap p1 p2 gp = some (some opp) →
      (∃ s1 s2, opp.path = [s1, s2] ∧ s1.token_out = s2.token_in ∧
        s1.amount_in < s2.expected_out ∧
        s1.token_in = swap.token_out ∧ s2.token_out = swap.token_in) ∧
      opp.net_profit_wei + opp.gas_estimate * gp = opp.profit_wei) := by
  constructor
  · intro mb gp l1 l2 token inter amount opp h
    unfold find_two_hop_arb at h
    split_ifs at h with hemp
    · simp at h
    · refine two_hop_go_pred
        (fun o => o.input_amount < o.output_amount ∧
          o.net_profit + o.gas_estimate * gp = o.profit ∧
          ∃ s1 s2, o.path = [s1, s2] ∧ s1.token_out = s2.token_in ∧
            s1.token_in = token ∧ s2.token_out = token)
        (fun a b o hev => ?_) _ none opp (fun o ho => by cases ho) h
      obtain ⟨h1, h2, h3, h4, h5⟩ := eval_pair_emits hev
      exact ⟨h1, h2, h5⟩
  · intro swap p1 p2 gp opp h
    unfold calculate_2hop_profit at h
    split at h
    · simp at h
    · simp at h
    next victim_out hsim =>
    dsimp only at h
    split at h
    · simp at h
    · simp at h
    next step1_out hsim1 =>
    split at h
    · simp at h
    · simp at h
    next step2_out hsim2 =>
    split at h
    · simp at h
    split at h
    · simp at h
    next gas_cost hgc =>
    split at h
    · simp at h
    simp only [Option.some.injEq] at h
    subst h
    simp only [cmul, Option.ite_none_right_eq_some, Option.some.injEq] at hgc
    obtain ⟨-, hgc⟩ := hgc
    refine ⟨⟨_, _, rfl, rfl, ?_, rfl, rfl⟩, ?_⟩
    · show victim_out / 10 < step2_out
      omega
    · show step2_out - victim_out / 10 - gas_cost + 200000 * gp =
        step2_out - victim_out / 10
      omega

/-- C2 witness: the scenario-3 emission satisfies all four invariants. -/
theorem spec2_c2_witness :
    oppW2.input_amount < oppW2.output_amount ∧
    oppW2.net_profit + oppW2.gas_estimate * 10 ^ 8 = oppW2.profit ∧
    oppW2.path.map ArbitrageStep.token_in = [1, 2] ∧
    oppW2.path.map ArbitrageStep.token_out = [2, 1] := by
  have hev : eval_pair 10 (10 ^ 8) 1 2 (10 ^ 18) poolA3 poolB3 =
      some (some oppW2) := by rfl
  have hfold : find_two_hop_arb 10 (10 ^ 8) [poolA3] [poolB3] 1 2 (10 ^ 18) =
      some (some oppW2) := by
    unfold find_two_hop_arb
    rw [if_neg (by simp)]
    rw [show ([poolA3].flatMap fun a => [poolB3].map fun b => (a, b)) =
      [(poolA3, poolB3)] from rfl]
    rw [two_hop_go_cons hev]
    rfl
  have h := spec2_c2.1 10 (10 ^ 8) [poolA3] [poolB3] 1 2 (10 ^ 18) oppW2 hfold
  exact ⟨h.1, h.2.1, by rfl, by rfl⟩

/-- C6, counterexample. On the single pair `(poolA3, poolB3)` with
`min_profit_bps = 0` the forward chain qualifies under the claim's
criterion (output exceeds input, hence ratio at least the zero threshold),
yet at gas price `10^30` the code returns nothing: profitability also
requires gross profit to exceed `gas_estimate * gas_price`, which the
claim's iff omits. -/
theorem spec2_c6_counterexample :
    find_two_hop_arb 0 (10 ^ 30) [poolA3] [poolB3] 1 2 (10 ^ 18) = some none ∧
    amountOutP poolB3 (amountOutP poolA3 (10 ^ 18) 1) 2 = 1045235831640304146 ∧
    10 ^ 18 < 1045235831640304146 ∧
    0 ≤ (1045235831640304146 - 10 ^ 18) * 10000 / 10 ^ 18 := by
  have hev : eval_pair 0 (10 ^ 30) 1 2 (10 ^ 18) poolA3 poolB3 = some none := by rfl
  refine ⟨?_, by rfl, by decide, by decide⟩
  unfold find_two_hop_arb
  rw [if_neg (by simp)]
  rw [show ([poolA3].flatMap fun a => [poolB3].map fun b => (a, b)) =
    [(poolA3, poolB3)] from rfl]
  rw [two_hop_go_cons hev]
  rfl

/-- C6, amended. In the regime where no `U256` step overflows, a pool pair
with distinct addresses and nonzero intermediate outputs emits an
opportunity iff `out > input`, the low 32 bits of
`(out − input) * 10000 / input` reach `min_profit_bps`, and the gross
profit strictly exceeds `gas_estimate * gas_price`; among emitting pairs
the returned opportunity has maximal net profit, and if any pair emits
(and none panics) an opportunity is returned. -/
theorem spec2_c6 :
    (∀ (mb gp : Nat) (token inter : Addr) (amount : Nat) (a b : Pool),
      a.reserve0 < RESBOUND → a.reserve1 < RESBOUND → a.fee_bps ≤ 10000 →
      b.reserve0 < RESBOUND → b.reserve1 < RESBOUND → b.fee_bps ≤ 10000 →
      amount < RESBOUND → 0 < amount → gp < 2 ^ 128 →
      a.address ≠ b.address →
      amountOutP a amount token ≠ 0 →
      amountOutP b (amountOutP a amount token) inter ≠ 0 →
      ((∃ opp, eval_pair mb gp token inter amount a b = some (some opp)) ↔
        (amount < amountOutP b (amountOutP a amount token) inter ∧
         mb ≤ (amountOutP b (amountOutP a amount token) inter - amount) *
            10000 / amount % 2 ^ 32 ∧
         estimate_gas a.pool_type b.pool_type * gp <
           amountOutP b (amountOutP a amount token) inter - amount))) ∧
    (∀ (mb gp : Nat) (l1 l2 : List Pool) (token inter : Addr) (amount : Nat)
      (opp : ArbitrageOpportunity),
      find_two_hop_arb mb gp l1 l2 token inter amount = some (some opp) →
      ∀ pa pb o, pa ∈ l1 → pb ∈ l2 →
        eval_pair mb gp token inter amount pa pb = some (some o) →
        o.net_profit ≤ opp.net_profit) ∧
    (∀ (mb gp : Nat) (l1 l2 : List Pool) (token inter : Addr) (amount : Nat)
      (pa pb : Pool) (o : ArbitrageOpportunity),
      (∀ p1 ∈ l1, ∀ p2 ∈ l2, eval_pair mb gp token inter amount p1 p2 ≠ none) →
      pa ∈ l1 → pb ∈ l2 →
      eval_pair mb gp token inter amount pa pb = some (some o) →
      ∃ opp, find_two_hop_arb mb gp l1 l2 token inter amount = some (some opp)) := by
  refine ⟨?_, ?_, ?_⟩
  · intro mb gp token inter amount a b ha0 ha1 haf hb0 hb1 hbf hamt hpos hgp haddr hm hout
    have hga : get_amount_out a amount token = some (amountOutP a amount token) :=
      get_amount_out_eq_pure a amount token ha0 ha1 hamt haf
    have hmlt : amountOutP a amount token < RESBOUND :=
      amountOutP_lt_resbound a amount token ha0 ha1
    have hgb : get_amount_out b (amountOutP a amount token) inter =
        some (amountOutP b (amountOutP a amount token) inter) :=
      get_amount_out_eq_pure b _ inter hb0 hb1 hmlt hbf
    have houtlt : amountOutP b (amountOutP a amount token) inter < RESBOUND :=
      amountOutP_lt_resbound b _ inter hb0 hb1
    set m := amountOutP a amount token with hmdef
    set out := amountOutP b m inter with houtdef
    have key : eval_pair mb gp token inter amount a b =
        if out ≤ amount then some none
        else if (out - amount) * 10000 / amount % 2 ^ 32 < mb then some none
        else if estimate_gas a.pool_type b.pool_type * gp < out - amount then
          some (some ⟨[⟨a.address, a.pool_type, token, inter, amount, m⟩,
            ⟨b.address, b.pool_type, inter, token, m, out⟩],
            token, amount, out, out - amount,
            (out - amount) * 10000 / amount % 2 ^ 32,
            estimate_gas a.pool_type b.pool_type,
            out - amount - estimate_gas a.pool_type b.pool_type * gp⟩)
        else some none := by
      unfold eval_pair
      rw [if_neg haddr, hga]
      dsimp only
      rw [if_neg hm, hgb]
      dsimp only
      by_cases hle : out ≤ amount
      · have : out = 0 ∨ out ≤ amount := Or.inr hle
        rw [if_pos hle]
        split_ifs with h0
        · rfl
        · rfl
      · rw [if_neg hout, if_neg hle, if_neg hle]
        have hprofmul : (out - amount) * 10000 ≤ U256MAX := by
          have h1 : out - amount ≤ RESBOUND := le_of_lt
            (lt_of_le_of_lt (Nat.sub_le _ _) houtlt)
          calc (out - amount) * 10000 ≤ RESBOUND * 10000 :=
              Nat.mul_le_mul_right _ h1
            _ ≤ U256MAX := by norm_num [RESBOUND, U256MAX]
        rw [show cmul (out - amount) 10000 = some ((out - amount) * 10000) by
          rw [cmul, if_pos hprofmul]]
        dsimp only
        rw [show cdiv ((out - amount) * 10000) amount =
            some ((out - amount) * 10000 / amount) by
          rw [cdiv, if_neg (Nat.pos_iff_ne_zero.mp hpos)]]
        dsimp only
        have hgasle : estimate_gas a.pool_type b.pool_type ≤ 350000 := by
          rcases a.pool_type with _ | _ | _ <;> rcases b.pool_type with _ | _ | _ <;>
            norm_num [estimate_gas]
        have hgasmul : estimate_gas a.pool_type b.pool_type * gp ≤ U256MAX := by
          calc estimate_gas a.pool_type b.pool_type * gp
              ≤ 350000 * gp := Nat.mul_le_mul_right _ hgasle
            _ ≤ 350000 * 2 ^ 128 := Nat.mul_le_mul_left _ (le_of_lt hgp)
            _ ≤ U256MAX := by norm_num [U256MAX]
        rw [show cmul (estimate_gas a.pool_type b.pool_type) gp =
            some (estimate_gas a.pool_type b.pool_type * gp) by
          rw [cmul, if_pos hgasmul]]
    constructor
    · rintro ⟨opp, hopp⟩
      rw [key] at hopp
      split_ifs at hopp with h1 h2 h3
      · simp at hopp
      · simp at hopp
      · exact ⟨lt_of_not_le h1, le_of_not_lt h2, h3⟩
      · simp at hopp
    · rintro ⟨h1, h2, h3⟩
      rw [key, if_neg (not_le.mpr h1), if_neg (not_lt.mpr h2), if_pos h3]
      exact ⟨_, rfl⟩
  · intro mb gp l1 l2 token inter amount opp h pa pb o hpa hpb hev
    unfold find_two_hop_arb at h
    split_ifs at h with hemp
    · simp at h
    · refine two_hop_go_max _ none opp h pa pb o ?_ hev
      exact List.mem_flatMap.mpr ⟨pa, hpa, List.mem_map.mpr ⟨pb, hpb, rfl⟩⟩
  · intro mb gp l1 l2 token inter amount pa pb o hnp hpa hpb hev
    have hne1 : l1.isEmpty = false := by
      cases l1 with
      | nil => cases hpa
      | cons x xs => rfl
    have hne2 : l2.isEmpty = false := by
      cases l2 with
      | nil => cases hpb
      | cons x xs => rfl
    unfold find_two_hop_arb
    rw [if_neg (by simp [hne1, hne2])]
    refine two_hop_go_reaches _ none pa pb o ?_ ?_ hev
    · intro p hp
      obtain ⟨x, hx, y, hy, hxy⟩ := by
        simpa [List.mem_flatMap, List.mem_map] using hp
      rw [← hxy]
      exact hnp x hx y hy
    · exact List.mem_flatMap.mpr ⟨pa, hpa, List.mem_map.mpr ⟨pb, hpb, rfl⟩⟩

/-- C6 witness: on the scenario-3 pair at gas price `10^8` and threshold
10 bps, the emitted pair meets all three qualification conditions. -/
theorem spec2_c6_witness :
    10 ^ 18 < amountOutP poolB3 (amountOutP poolA3 (10 ^ 18) 1) 2 ∧
    10 ≤ (amountOutP poolB3 (amountOutP poolA3 (10 ^ 18) 1) 2 - 10 ^ 18) *
        10000 / 10 ^ 18 % 2 ^ 32 ∧
    estimate_gas poolA3.pool_type poolB3.pool_type * 10 ^ 8 <
      amountOutP poolB3 (amountOutP poolA3 (10 ^ 18) 1) 2 - 10 ^ 18 :=
  (spec2_c6.1 10 (10 ^ 8) 1 2 (10 ^ 18) poolA3 poolB3 (by decide) (by decide)
      (by decide) (by decide) (by decide) (by decide) (by decide) (by decide)
      (by decide) (by decide) (by decide) (by decide)).mp
    ⟨oppW2, by rfl⟩

/-- The probe-recording walk projects onto the plain walk. -/
theorem optimal_go_probes_fst (pa pb : Pool) (token inter : Addr) :
    ∀ (fuel low high ba bp : Nat),
      optimal_go pa pb token inter fuel low high ba bp =
        (optimal_probes pa pb token inter fuel low high ba bp).map Prod.fst := by
  intro fuel
  induction fuel with
  | zero => intro low high ba bp; rfl
  | succ n ih =>
    intro low high ba bp
    unfold optimal_go optimal_probes
    by_cases hlh : low ≥ high
    · simp [hlh]
    · simp only [hlh, if_false]
      cases hs : cadd low high with
      | none => rfl
      | some s =>
        dsimp only
        cases hga : get_amount_out pa (s / 2) token with
        | none => rfl
        | some m =>
          dsimp only
          cases hgb : get_amount_out pb m inter with
          | none => rfl
          | some out =>
            dsimp only
            by_cases hp : (if out > s / 2 then out - s / 2 else 0) > bp
            · simp only [hp, if_true]
              cases hc : cadd (s / 2) 1 with
              | none => rfl
              | some low2 =>
                dsimp only
                rw [ih]
                cases optimal_probes pa pb token inter n low2 high (s / 2)
                    (if out > s / 2 then out - s / 2 else 0) with
                | none => rfl
                | some rp => obtain ⟨r, ps⟩ := rp; rfl
            · simp only [hp, if_false]
              cases hc : csub (s / 2) 1 with
              | none => rfl
              | some high2 =>
                dsimp only
                rw [ih]
                cases optimal_probes pa pb token inter n low high2 ba bp with
                | none => rfl
                | some rp => obtain ⟨r, ps⟩ := rp; rfl

/-- Invariant of the optimal-sizing walk: the returned amount is the
incoming best or a probed point, its profit dominates every probed
point's profit, and it dominates the incoming best profit. -/
theorem optimal_probes_spec (pa pb : Pool) (token inter : Addr)
    (ha0 : pa.reserve0 < RESBOUND) (ha1 : pa.reserve1 < RESBOUND)
    (haf : pa.fee_bps ≤ 10000) (hb0 : pb.reserve0 < RESBOUND)
    (hb1 : pb.reserve1 < RESBOUND) (hbf : pb.fee_bps ≤ 10000) :
    ∀ (fuel low high ba bp r : Nat) (ps : List Nat),
      low < RESBOUND → high < RESBOUND →
      bp ≤ profit_at pa pb token inter ba →
      optimal_probes pa pb token inter fuel low high ba bp = some (r, ps) →
      (∀ m ∈ ps, profit_at pa pb token inter m ≤ profit_at pa pb token inter r) ∧
      (r = ba ∨ r ∈ ps) ∧
      bp ≤ profit_at pa pb token inter r := by
  intro fuel
  induction fuel with
  | zero =>
    intro low high ba bp r ps hlow hhigh hbp h
    simp only [optimal_probes, Option.some.injEq, Prod.mk.injEq] at h
    obtain ⟨rfl, rfl⟩ := h
    exact ⟨by simp, Or.inl rfl, hbp⟩
  | succ n ih =>
    intro low high ba bp r ps hlow hhigh hbp h
    unfold optimal_probes at h
    split_ifs at h with hlh
    · simp only [Option.some.injEq, Prod.mk.injEq] at h
      obtain ⟨rfl, rfl⟩ := h
      exact ⟨by simp, Or.inl rfl, hbp⟩
    · push_neg at hlh
      have hsum : cadd low high = some (low + high) := by
        rw [cadd, if_pos]
        calc low + high ≤ RESBOUND + RESBOUND := by omega
          _ ≤ U256MAX := by norm_num [RESBOUND, U256MAX]
      rw [hsum] at h
      dsimp only at h
      have hmidlt : (low + high) / 2 < RESBOUND := by omega
      have hga := get_amount_out_eq_pure pa ((low + high) / 2) token ha0 ha1 hmidlt haf
      rw [hga] at h
      dsimp only at h
      have hmid2 : amountOutP pa ((low + high) / 2) token < RESBOUND :=
        amountOutP_lt_resbound pa _ token ha0 ha1
      have hgb := get_amount_out_eq_pure pb (amountOutP pa ((low + high) / 2) token)
        inter hb0 hb1 hmid2 hbf
      rw [hgb] at h
      dsimp only at h
      set mid := (low + high) / 2 with hmiddef
      have hpro : (if amountOutP pb (amountOutP pa mid token) inter > mid then
          amountOutP pb (amountOutP pa mid token) inter - mid else 0) =
          profit_at pa pb token inter mid := rfl
      rw [hpro] at h
      have hmh : mid < high := by omega
      split_ifs at h with hp
      · have hc : cadd mid 1 = some (mid + 1) := by
          rw [cadd, if_pos]
          calc mid + 1 ≤ RESBOUND := by omega
            _ ≤ U256MAX := by norm_num [RESBOUND, U256MAX]
        rw [hc] at h
        dsimp only at h
        cases hrec : optimal_probes pa pb token inter n (mid + 1) high mid
            (profit_at pa pb token inter mid) with
        | none => rw [hrec] at h; simp at h
        | some rp =>
          obtain ⟨r', ps'⟩ := rp
          rw [hrec] at h
          simp only [Option.some.injEq, Prod.mk.injEq] at h
          obtain ⟨rfl, rfl⟩ := h
          obtain ⟨hall, hor, hbp'⟩ := ih (mid + 1) high mid
            (profit_at pa pb token inter mid) r' ps' (by omega) hhigh
            (le_refl _) hrec
          refine ⟨?_, ?_, le_trans (le_of_lt hp) hbp'⟩
          · intro m hm
            rcases List.mem_cons.mp hm with rfl | hm'
            · exact hbp'
            · exact hall m hm'
          · rcases hor with rfl | hr'
            · exact Or.inr (List.mem_cons_self _ _)
            · exact Or.inr (List.mem_cons_of_mem _ hr')
      · cases hcs : csub mid 1 with
        | none => rw [hcs] at h; simp at h
        | some high2 =>
          rw [hcs] at h
          dsimp only at h
          cases hrec : optimal_probes pa pb token inter n low high2 ba bp with
          | none => rw [hrec] at h; simp at h
          | some rp =>
            obtain ⟨r', ps'⟩ := rp
            rw [hrec] at h
            simp only [Option.some.injEq, Prod.mk.injEq] at h
            obtain ⟨rfl, rfl⟩ := h
            have hh2 : high2 < RESBOUND := by
              have : high2 = mid - 1 := by
                simp only [csub, Option.ite_none_right_eq_some,
                  Option.some.injEq] at hcs
                omega
              omega
            obtain ⟨hall, hor, hbp'⟩ := ih low high2 ba bp r' ps' hlow hh2 hbp hrec
            refine ⟨?_, ?_, hbp'⟩
            · intro m hm
              rcases List.mem_cons.mp hm with rfl | hm'
              · exact le_trans (le_of_not_lt hp) hbp'
              · exact hall m hm'
            · rcases hor with rfl | hr'
              · exact Or.inl rfl
              · exact Or.inr (List.mem_cons_of_mem _ hr')

/-- The probe loop returns the incoming best, recording nothing, as soon
as the bounds cross. -/
theorem optimal_probes_break (pa pb : Pool) (token inter : Addr)
    (fuel low high ba bp : Nat) (hlh : low ≥ high) :
    optimal_probes pa pb token inter (fuel + 1) low high ba bp = some (ba, []) := by
  unfold optimal_probes
  rw [if_pos hlh]

/-- C5, counterexample. On the zero-fee pair `(pa5, pb5)` the two-hop
profit peaks below the lower bound `10^15`: the walk returns
1140624999999999 with profit 25424517171277, strictly less than the
profit 94527363184079 at the lower bound, refuting
`profit(returned) ≥ profit(lower_bound)`. Moreover with dust reserves
(`paZ`) the upper bound falls below the lower bound and the walk performs
no profit evaluation at all (no probes), refuting the second conjunct. -/
theorem spec2_c5_counterexample :
    find_optimal_amount pa5 pb5 1 2 = some 1140624999999999 ∧
    profit_at pa5 pb5 1 2 1140624999999999 = 25424517171277 ∧
    profit_at pa5 pb5 1 2 (10 ^ 15) = 94527363184079 ∧
    (25424517171277 : Nat) < 94527363184079 ∧
    optimal_probes paZ pb5 1 2 64 (10 ^ 15)
      (min paZ.reserve0 paZ.reserve1 / 10) (10 ^ 15) 0 = some (10 ^ 15, []) :=
  ⟨by rfl, by rfl, by rfl, by decide, by rfl⟩

/-- C5, amended. In the no-overflow regime, `find_optimal_amount` returns
either the lower bound `10^15` or one of the probed amounts, and the
returned amount's two-hop profit is at least the profit of every probed
amount; when the upper bound (a tenth of pool A's smaller reserve) does
not exceed the lower bound, no probe is evaluated and the lower bound is
returned. The returned profit need not reach the profit at the lower
bound, which the walk never evaluates. -/
theorem spec2_c5 (pool_a pool_b : Pool) (token inter : Addr)
    (ha0 : pool_a.reserve0 < RESBOUND) (ha1 : pool_a.reserve1 < RESBOUND)
    (haf : pool_a.fee_bps ≤ 10000) (hb0 : pool_b.reserve0 < RESBOUND)
    (hb1 : pool_b.reserve1 < RESBOUND) (hbf : pool_b.fee_bps ≤ 10000)
    (r : Nat) (ps : List Nat)
    (h : optimal_probes pool_a pool_b token inter 64 (10 ^ 15)
      (min pool_a.reserve0 pool_a.reserve1 / 10) (10 ^ 15) 0 = some (r, ps)) :
    find_optimal_amount pool_a pool_b token inter = some r ∧
    (∀ m ∈ ps, profit_at pool_a pool_b token inter m ≤
      profit_at pool_a pool_b token inter r) ∧
    (r = 10 ^ 15 ∨ r ∈ ps) ∧
    (min pool_a.reserve0 pool_a.reserve1 / 10 ≤ 10 ^ 15 → ps = []) := by
  have hlow : (10 ^ 15 : Nat) < RESBOUND := by norm_num [RESBOUND]
  have hhigh : min pool_a.reserve0 pool_a.reserve1 / 10 < RESBOUND := by
    have h1 : min pool_a.reserve0 pool_a.reserve1 ≤ pool_a.reserve0 :=
      min_le_left _ _
    have h2 := Nat.div_le_self (min pool_a.reserve0 pool_a.reserve1) 10
    omega
  obtain ⟨hall, hor, -⟩ := optimal_probes_spec pool_a pool_b token inter
    ha0 ha1 haf hb0 hb1 hbf 64 (10 ^ 15) _ (10 ^ 15) 0 r ps hlow hhigh
    (Nat.zero_le _) h
  refine ⟨?_, hall, hor, ?_⟩
  · unfold find_optimal_amount
    rw [optimal_go_probes_fst, h]
    rfl
  · intro hle
    rw [show (64 : Nat) = 63 + 1 from rfl,
      optimal_probes_break pool_a pool_b token inter 63 _ _ _ _ hle] at h
    simp only [Option.some.injEq, Prod.mk.injEq] at h
    exact h.2.symm

/-- C5 witness: a two-probe walk where nothing improves returns the lower
bound. -/
theorem spec2_c5_witness : find_optimal_amount paW5 pbW5 1 2 = some (10 ^ 15) :=
  (spec2_c5 paW5 pbW5 1 2 (by decide) (by decide) (by decide) (by decide)
    (by decide) (by decide) (10 ^ 15) [10 ^ 15 + 2, 10 ^ 15] (by rfl)).1

end MevEngine
